import Mathlib

/-!
Shallow embedding of the core logic of the CV data plotter
(`Plot_CVs_all_file_types.py` and `smooth_data.py`): the header-based
column resolver (`clean_column_name`, the voltage/current index scan
inside `parse_data_file`) and the voltage-jump outlier filter
(`remove_voltage_jumps`).  The GUI, file I/O and the pandas CSV reader
are abstracted away: the resolver is modelled on the list of header
labels the reader produced, and the jump filter on the list of
(voltage, current) rows of the parsed table, with floating-point values
modelled as rationals and pandas NaN as `Option.none`.
-/

/-- A character kept by the regular expression `[a-z0-9]` of
`clean_column_name` (applied after lower-casing). -/
def keep_alnum (c : Char) : Bool :=
  (97 ≤ c.toNat && c.toNat ≤ 122) || (48 ≤ c.toNat && c.toNat ≤ 57)

/-- Models `clean_column_name` from both source files: lower-case the
label, then delete every character that does not match `[a-z0-9]`. -/
def clean_column_name (s : String) : String :=
  ⟨(s.data.map Char.toLower).filter keep_alnum⟩

/-- Models the Python substring test `pat in s`. -/
def str_contains (s pat : String) : Bool :=
  decide (pat.data <:+: s.data)

/-- The voltage-role test of `parse_data_file`:
`'potent' in name or 'volt' in name` on a cleaned label. -/
def voltage_name_match (name : String) : Bool :=
  str_contains name "potent" || str_contains name "volt"

/-- The current-role test of `parse_data_file`: `'curr' in name` on a
cleaned label. -/
def current_name_match (name : String) : Bool :=
  str_contains name "curr"

/-- Models `next((i for i, name in enumerate(xs) if p name), None)`:
the index of the first element satisfying `p`, if any. -/
def first_match_idx (p : String → Bool) : List String → Option Nat
  | [] => none
  | x :: xs => if p x then some 0 else (first_match_idx p xs).map (fun i => i + 1)

/-- Models `voltage_idx` of `parse_data_file` (`smooth_data.py` line 30):
first cleaned header containing `potent` or `volt`. -/
def voltage_idx (headers : List String) : Option Nat :=
  first_match_idx voltage_name_match (headers.map (fun c => clean_column_name c))

/-- Models `current_idx` of `parse_data_file` (`smooth_data.py` line 31):
first cleaned header containing `curr`. -/
def current_idx (headers : List String) : Option Nat :=
  first_match_idx current_name_match (headers.map (fun c => clean_column_name c))

/-- Models the explicit scan loop of `parse_data_file` in
`Plot_CVs_all_file_types.py` (lines 38-44): one pass over the cleaned
headers, assigning each role the current index the first time its test
fires. -/
def resolve_scan : Nat → Option Nat → Option Nat → List String → Option Nat × Option Nat
  | _, v, c, [] => (v, c)
  | i, v, c, name :: rest =>
    let v2 : Option Nat := if v.isNone && voltage_name_match name then some i else v
    let c2 : Option Nat := if c.isNone && current_name_match name then some i else c
    resolve_scan (i + 1) v2 c2 rest

/-- Models the Python `repr` rendering of the original header list used
in the error message `f"... Found: {original_columns}"`. -/
def quote_label (h : String) : String := "\x27" ++ h ++ "\x27"

/-- Renders the elements of the header list, comma separated, as Python
`repr` does for a list of strings. -/
def headers_repr_core : List String → String
  | [] => ""
  | [h] => quote_label h
  | h :: t => quote_label h ++ ", " ++ headers_repr_core t

/-- Full rendering of the original header list in the error message. -/
def headers_repr (headers : List String) : String :=
  "[" ++ headers_repr_core headers ++ "]"

/-- The message of the `ValueError` raised by `parse_data_file` when a
role is unresolved (the spec's `ColumnNotFoundError`). -/
def column_error_message (file_path : String) (headers : List String) : String :=
  "Voltage/Current columns not found in " ++ file_path ++ ". Found: " ++
    headers_repr headers

/-- Models the column-resolution stage of `parse_data_file`: given the
header row the CSV reader produced for `file_path`, return the resolved
(voltage, current) column indices, or the `ColumnNotFoundError` message
when either role is unresolved.  File reading, delimiter sniffing and
the pandas parse are abstracted into the given header list. -/
def parse_data_file (file_path : String) (headers : List String) :
    Except String (Nat × Nat) :=
  match voltage_idx headers, current_idx headers with
  | some v, some c => Except.ok (v, c)
  | _, _ => Except.error (column_error_message file_path headers)

-- Characterisation of `first_match_idx` as a genuine first match.

theorem first_match_idx_some {p : String → Bool} :
    ∀ {xs : List String} {i : Nat}, first_match_idx p xs = some i →
      (∃ x, xs[i]? = some x ∧ p x = true) ∧
        ∀ j, j < i → ∀ y, xs[j]? = some y → p y = false := by
  intro xs
  induction xs with
  | nil => intro i h; simp [first_match_idx] at h
  | cons x xs ih =>
    intro i h
    simp only [first_match_idx] at h
    by_cases hx : p x = true
    · simp [hx] at h
      subst h
      exact ⟨⟨x, by simp, hx⟩, fun j hj => by omega⟩
    · simp [hx] at h
      obtain ⟨i0, h0, hi⟩ := h
      subst hi
      obtain ⟨⟨y, hy, hpy⟩, hmin⟩ := ih h0
      refine ⟨⟨y, by simpa using hy, hpy⟩, ?_⟩
      intro j hj z hz
      cases j with
      | zero =>
        simp at hz
        subst hz
        simpa using hx
      | succ k =>
        simp at hz
        exact hmin k (by omega) z hz

theorem first_match_idx_none {p : String → Bool} :
    ∀ {xs : List String}, first_match_idx p xs = none ↔ ∀ x ∈ xs, p x = false := by
  intro xs
  induction xs with
  | nil => simp [first_match_idx]
  | cons x xs ih =>
    by_cases hx : p x = true
    · simp [first_match_idx, hx]
    · simp only [first_match_idx, hx]
      simp only [Bool.not_eq_true] at hx
      simp [hx, ih]

/-- The one-pass scan of `Plot_CVs_all_file_types.py` computes, for each
role, the first matching index, offset by the starting counter, as long
as the role is still unassigned; an assigned role is left untouched. -/
theorem resolve_scan_eq_first_match :
    ∀ (xs : List String) (i : Nat) (v c : Option Nat),
      resolve_scan i v c xs =
        ((match v with
          | some a => some a
          | none => (first_match_idx voltage_name_match xs).map (fun j => j + i)),
         (match c with
          | some b => some b
          | none => (first_match_idx current_name_match xs).map (fun j => j + i))) := by
  intro xs
  induction xs with
  | nil =>
    intro i v c
    cases v <;> cases c <;> simp [resolve_scan, first_match_idx]
  | cons x xs ih =>
    intro i v c
    simp only [resolve_scan]
    rw [ih]
    simp only [Prod.mk.injEq]
    constructor
    · cases v with
      | some a => simp
      | none =>
        by_cases hx : voltage_name_match x = true
        · simp [first_match_idx, hx]
        · simp only [Bool.not_eq_true] at hx
          simp [first_match_idx, hx, Option.map_map]
          cases first_match_idx voltage_name_match xs with
          | none => simp
          | some j => simp [Function.comp]; omega
    · cases c with
      | some b => simp
      | none =>
        by_cases hx : current_name_match x = true
        · simp [first_match_idx, hx]
        · simp only [Bool.not_eq_true] at hx
          simp [first_match_idx, hx, Option.map_map]
          cases first_match_idx current_name_match xs with
          | none => simp
          | some j => simp [Function.comp]; omega

/-- The two implementations of the resolver agree: the generator-based
`next(...)` form of `smooth_data.py` and the scan loop of
`Plot_CVs_all_file_types.py` produce the same pair of indices. -/
theorem resolve_scan_eq_idx (headers : List String) :
    resolve_scan 0 none none (headers.map (fun c => clean_column_name c)) =
      (voltage_idx headers, current_idx headers) := by
  rw [resolve_scan_eq_first_match]
  simp [voltage_idx, current_idx]

theorem idx_first_spec {p : String → Bool} {headers : List String} {i : Nat}
    (h : first_match_idx p (headers.map (fun c => clean_column_name c)) = some i) :
    (∃ x, headers[i]? = some x ∧ p (clean_column_name x) = true) ∧
      ∀ j, j < i → ∀ g, headers[j]? = some g → p (clean_column_name g) = false := by
  obtain ⟨⟨x, hx, hpx⟩, hmin⟩ := first_match_idx_some h
  rw [List.getElem?_map, Option.map_eq_some'] at hx
  obtain ⟨x0, hx0, hcx⟩ := hx
  refine ⟨⟨x0, hx0, by rw [hcx]; exact hpx⟩, ?_⟩
  intro j hj g hg
  exact hmin j hj (clean_column_name g)
    (by rw [List.getElem?_map, hg]; rfl)

/-- C1: the column resolver picks as voltage column the first header (in
left-to-right order) whose normalized label contains `potent` or `volt`,
and as current column the first whose normalized label contains `curr`;
on `["Time","Current (A)","Potential (V)","Current2"]` it resolves
voltage to index 2 and current to index 1. -/
theorem C1_column_resolver_first_match :
    (∀ (headers : List String) (i : Nat), voltage_idx headers = some i →
        (∃ h, headers[i]? = some h ∧
          (str_contains (clean_column_name h) "potent" ||
            str_contains (clean_column_name h) "volt") = true) ∧
        ∀ j, j < i → ∀ g, headers[j]? = some g →
          (str_contains (clean_column_name g) "potent" ||
            str_contains (clean_column_name g) "volt") = false) ∧
    (∀ (headers : List String) (i : Nat), current_idx headers = some i →
        (∃ h, headers[i]? = some h ∧
          str_contains (clean_column_name h) "curr" = true) ∧
        ∀ j, j < i → ∀ g, headers[j]? = some g →
          str_contains (clean_column_name g) "curr" = false) ∧
    voltage_idx ["Time", "Current (A)", "Potential (V)", "Current2"] = some 2 ∧
    current_idx ["Time", "Current (A)", "Potential (V)", "Current2"] = some 1 := by
  refine ⟨?_, ?_, by decide, by decide⟩
  · intro headers i h
    exact idx_first_spec h
  · intro headers i h
    exact idx_first_spec h

theorem C1_column_resolver_first_match_witness :
    (∃ h, (["Time", "Current (A)", "Potential (V)", "Current2"] :
        List String)[2]? = some h ∧
      (str_contains (clean_column_name h) "potent" ||
        str_contains (clean_column_name h) "volt") = true) ∧
    ∀ j, j < 2 → ∀ g, (["Time", "Current (A)", "Potential (V)", "Current2"] :
        List String)[j]? = some g →
      (str_contains (clean_column_name g) "potent" ||
        str_contains (clean_column_name g) "volt") = false :=
  C1_column_resolver_first_match.1
    ["Time", "Current (A)", "Potential (V)", "Current2"] 2 (by decide)

/-- C3 counterexample: the header `"Volt Curr"` normalizes to
`voltcurr`, which matches both roles; the resolver assigns it to the
voltage role AND to the current role (the current scan does not skip
the column the voltage role picked), so the current role is not
satisfied by the other column `"Current (A)"`. -/
theorem C3_counterexample :
    voltage_name_match (clean_column_name "Volt Curr") = true ∧
    current_name_match (clean_column_name "Volt Curr") = true ∧
    voltage_idx ["Volt Curr", "Current (A)"] = some 0 ∧
    current_idx ["Volt Curr", "Current (A)"] = some 0 ∧
    current_idx ["Volt Curr", "Current (A)"] ≠ some 1 := by
  decide

/-- C3 (amended): when a header label's normalized form matches both the
voltage substrings and the current substring, the two roles resolve it
independently: a leading dual-match column is selected as the voltage
column and as the current column simultaneously. -/
theorem C3_dual_match_selected_by_both_roles :
    ∀ (name : String) (rest : List String),
      voltage_name_match (clean_column_name name) = true →
      current_name_match (clean_column_name name) = true →
      voltage_idx (name :: rest) = some 0 ∧
        current_idx (name :: rest) = some 0 := by
  intro name rest hv hc
  constructor
  · simp [voltage_idx, first_match_idx, hv]
  · simp [current_idx, first_match_idx, hc]

theorem C3_dual_match_selected_by_both_roles_witness :
    voltage_idx ["Volt Curr", "Time"] = some 0 ∧
      current_idx ["Volt Curr", "Time"] = some 0 :=
  C3_dual_match_selected_by_both_roles "Volt Curr" ["Time"]
    (by decide) (by decide)

/-- A character that is alphanumeric in any case (`A-Z`, `a-z`, `0-9`);
its complement is what the claim calls punctuation or whitespace. -/
def is_alnum_any (c : Char) : Bool :=
  (65 ≤ c.toNat && c.toNat ≤ 90) || keep_alnum c

theorem toLower_eq_self_of_not_upper {c : Char}
    (h : ¬(65 ≤ c.toNat ∧ c.toNat ≤ 90)) : Char.toLower c = c := by
  unfold Char.toLower
  simp only [Char.toNat] at h ⊢
  split
  · rename_i hcond
    exfalso
    exact h hcond
  · rfl

/-- C7: normalization lower-cases and keeps exactly the characters
`a-z0-9`; labels equal up to per-character lower-casing normalize
identically, and deleting any non-alphanumeric (punctuation or
whitespace) character anywhere leaves the normalized key unchanged;
`"Potential (V)"`, `"potential_v"` and `"POTENTIAL-V"` all normalize to
`"potentialv"`. -/
theorem C7_header_normalization :
    clean_column_name "Potential (V)" = "potentialv" ∧
    clean_column_name "potential_v" = "potentialv" ∧
    clean_column_name "POTENTIAL-V" = "potentialv" ∧
    (∀ s : String, ∀ c ∈ (clean_column_name s).data,
      (97 ≤ c.toNat ∧ c.toNat ≤ 122) ∨ (48 ≤ c.toNat ∧ c.toNat ≤ 57)) ∧
    (∀ s t : String, s.data.map Char.toLower = t.data.map Char.toLower →
      clean_column_name s = clean_column_name t) ∧
    (∀ (pre post : List Char) (c : Char), is_alnum_any c = false →
      clean_column_name ⟨pre ++ c :: post⟩ = clean_column_name ⟨pre ++ post⟩) := by
  refine ⟨by decide, by decide, by decide, ?_, ?_, ?_⟩
  · intro s c hc
    simp only [clean_column_name, List.mem_filter] at hc
    have hk := hc.2
    simp only [keep_alnum, Bool.or_eq_true, Bool.and_eq_true,
      decide_eq_true_eq] at hk
    omega
  · intro s t h
    unfold clean_column_name
    rw [h]
  · intro pre post c hc
    simp only [is_alnum_any, keep_alnum, Bool.or_eq_false_iff,
      Bool.and_eq_false_iff, decide_eq_false_iff_not] at hc
    have hfix : Char.toLower c = c := by
      apply toLower_eq_self_of_not_upper
      intro hcontra
      rcases hc.1 with h1 | h1 <;> omega
    have hkeep : keep_alnum c = false := by
      simp only [keep_alnum, Bool.or_eq_false_iff, Bool.and_eq_false_iff,
        decide_eq_false_iff_not]
      exact hc.2
    unfold clean_column_name
    simp [List.map_append, List.map_cons, List.filter_append,
      List.filter_cons, hfix, hkeep]

theorem C7_header_normalization_witness :
    clean_column_name "Ab 1" = clean_column_name "aB 1" :=
  C7_header_normalization.2.2.2.2.1 "Ab 1" "aB 1" (by decide)

theorem idx_none_of_all {p : String → Bool} {headers : List String}
    (hall : ∀ h ∈ headers, p (clean_column_name h) = false) :
    first_match_idx p (headers.map (fun c => clean_column_name c)) = none := by
  rw [first_match_idx_none]
  intro x hx
  rw [List.mem_map] at hx
  obtain ⟨h0, hh0, rfl⟩ := hx
  exact hall h0 hh0

theorem mem_headers_repr_core :
    ∀ (hs : List String) (h : String), h ∈ hs →
      h.data <:+: (headers_repr_core hs).data := by
  intro hs
  induction hs with
  | nil => intro h hh; simp at hh
  | cons x t ih =>
    intro h hh
    cases t with
    | nil =>
      simp at hh
      subst hh
      refine ⟨"\x27".data, "\x27".data, ?_⟩
      simp [headers_repr_core, quote_label, String.data_append]
    | cons y t2 =>
      rcases List.mem_cons.mp hh with h1 | h2
      · subst h1
        refine ⟨"\x27".data,
          ("\x27" ++ ", " ++ headers_repr_core (y :: t2)).data, ?_⟩
        simp [headers_repr_core, quote_label, String.data_append,
          List.append_assoc]
      · refine (ih h h2).trans ?_
        have hsplit : headers_repr_core (x :: y :: t2) =
            (quote_label x ++ ", ") ++ headers_repr_core (y :: t2) := by
          simp [headers_repr_core]
        rw [hsplit, String.data_append]
        exact (List.suffix_append _ _).isInfix

/-- C6: whenever no header qualifies for the voltage role or none
qualifies for the current role, `parse_data_file` fails with the
column-not-found error, whose message contains the file path, the
rendered list of original header labels, and each original label. -/
theorem C6_column_not_found_error :
    ∀ (file_path : String) (headers : List String),
      ((∀ h ∈ headers, voltage_name_match (clean_column_name h) = false) ∨
        (∀ h ∈ headers, current_name_match (clean_column_name h) = false)) →
      parse_data_file file_path headers =
          Except.error (column_error_message file_path headers) ∧
        file_path.data <:+: (column_error_message file_path headers).data ∧
        (headers_repr headers).data <:+:
          (column_error_message file_path headers).data ∧
        ∀ h ∈ headers, h.data <:+: (column_error_message file_path headers).data := by
  intro file_path headers hfail
  have hrepr_inf : (headers_repr headers).data <:+:
      (column_error_message file_path headers).data := by
    refine ⟨("Voltage/Current columns not found in " ++ file_path ++
      ". Found: ").data, [], ?_⟩
    simp [column_error_message, String.data_append, List.append_assoc]
  refine ⟨?_, ?_, hrepr_inf, ?_⟩
  · have hnone : voltage_idx headers = none ∨ current_idx headers = none := by
      rcases hfail with hall | hall
      · exact Or.inl (idx_none_of_all hall)
      · exact Or.inr (idx_none_of_all hall)
    unfold parse_data_file
    rcases hnone with hn | hn
    · rw [hn]
    · rw [hn]
      cases voltage_idx headers <;> rfl
  · refine ⟨"Voltage/Current columns not found in ".data,
      (". Found: " ++ headers_repr headers).data, ?_⟩
    simp [column_error_message, String.data_append, List.append_assoc]
  · intro h hh
    refine ((mem_headers_repr_core headers h hh).trans ?_).trans hrepr_inf
    refine ⟨"[".data, "]".data, ?_⟩
    simp [headers_repr, String.data_append]

theorem C6_column_not_found_error_witness :
    parse_data_file "cv_scan.csv" ["Time", "Cycle"] =
        Except.error (column_error_message "cv_scan.csv" ["Time", "Cycle"]) ∧
      "cv_scan.csv".data <:+:
        (column_error_message "cv_scan.csv" ["Time", "Cycle"]).data ∧
      (headers_repr ["Time", "Cycle"]).data <:+:
        (column_error_message "cv_scan.csv" ["Time", "Cycle"]).data ∧
      ∀ h ∈ (["Time", "Cycle"] : List String), h.data <:+:
        (column_error_message "cv_scan.csv" ["Time", "Cycle"]).data :=
  C6_column_not_found_error "cv_scan.csv" ["Time", "Cycle"] (by decide)

/-- A row of the cleaned frame `pd.DataFrame({'Voltage': ..., 'Current': ...})`
built by `parse_data_file` with `return_df=True`: one voltage sample and
one current sample, with float values modelled as rationals. -/
structure DataRow where
  voltage : ℚ
  current : ℚ
deriving DecidableEq

/-- Models `df['dV'] = df['Voltage'].diff().abs()`: the first entry is
the pandas NaN (modelled as `none`), entry `i > 0` is the absolute
difference between voltage `i` and voltage `i - 1`. -/
def dV_col (rows : List DataRow) : List (Option ℚ) :=
  match rows with
  | [] => []
  | _ :: tail =>
    none :: List.zipWith (fun a b => some |b.voltage - a.voltage|) rows tail

/-- Models `avg_step = df['dV'][df['dV'] != 0].mean()`: pandas keeps the
NaN first difference in the `!= 0` selection (NaN compares unequal to 0)
but `mean` skips NaN entries, so the value is the arithmetic mean of the
non-zero, non-NaN differences; the mean of an empty selection is itself
NaN, modelled as `none`. -/
def avg_step (rows : List DataRow) : Option ℚ :=
  let nz := ((dV_col rows).filterMap id).filter (fun d => decide (d ≠ 0))
  if nz = [] then none else some (nz.sum / nz.length)

/-- Models `threshold = threshold_multiplier * avg_step` (NaN when the
average step is NaN). -/
def jump_threshold (threshold_multiplier : ℚ) (rows : List DataRow) : Option ℚ :=
  (avg_step rows).map (fun a => threshold_multiplier * a)

/-- Models one entry of `df['is_outlier'] = df['dV'] > threshold`: in
pandas any comparison against NaN (either side) is `False`. -/
def is_outlier (threshold : Option ℚ) (dv : Option ℚ) : Bool :=
  match threshold, dv with
  | some t, some d => decide (d > t)
  | _, _ => false

/-- Models `remove_voltage_jumps`: flag each row by comparing its `dV`
entry against the threshold, keep the unflagged rows in order
(`df[~df['is_outlier']]`), drop the helper columns and reindex.  The
Python function works on `df.copy()`, so the input frame is unchanged;
here that purity is inherent to the embedding. -/
def remove_voltage_jumps (rows : List DataRow) (threshold_multiplier : ℚ) :
    List DataRow :=
  let threshold := jump_threshold threshold_multiplier rows
  ((rows.zip (dV_col rows)).filter
    (fun p => ! is_outlier threshold p.2)).map Prod.fst

/-- Spec-side: the absolute differences between consecutive voltages. -/
def abs_voltage_diffs (rows : List DataRow) : List ℚ :=
  List.zipWith (fun a b => |b.voltage - a.voltage|) rows rows.tail

/-- Spec-side: the non-zero absolute voltage differences. -/
def nonzero_diffs (rows : List DataRow) : List ℚ :=
  (abs_voltage_diffs rows).filter (fun d => decide (d ≠ 0))

/-- Spec-side threshold: the multiplier times the arithmetic mean of all
non-zero absolute voltage differences. -/
def spec_threshold (rows : List DataRow) (m : ℚ) : ℚ :=
  m * ((nonzero_diffs rows).sum / (nonzero_diffs rows).length)

/-- Spec-side outlier classification by row index: row 0 has no
predecessor and is never an outlier; row `j + 1` is an outlier exactly
when its absolute voltage difference from row `j` strictly exceeds the
threshold. -/
def spec_is_outlier (rows : List DataRow) (m : ℚ) : Nat → Bool
  | 0 => false
  | j + 1 =>
    match rows[j]?, rows[j + 1]? with
    | some p, some r => decide (|r.voltage - p.voltage| > spec_threshold rows m)
    | _, _ => false

/-- Spec-side output: exactly the non-outlier rows, in original order. -/
def spec_output (rows : List DataRow) (m : ℚ) : List DataRow :=
  (List.range rows.length).filterMap fun i =>
    if spec_is_outlier rows m i then none else rows[i]?

theorem is_outlier_nan_threshold (dv : Option ℚ) : is_outlier none dv = false := by
  cases dv <;> rfl

theorem is_outlier_nan_dv (t : Option ℚ) : is_outlier t none = false := by
  cases t <;> rfl

theorem dV_col_length (rows : List DataRow) :
    (dV_col rows).length = rows.length := by
  cases rows with
  | nil => rfl
  | cons r tail => simp [dV_col]

theorem filterMap_id_zipWith_some {α β γ : Type} (f : α → β → γ) :
    ∀ (l1 : List α) (l2 : List β),
      (List.zipWith (fun a b => some (f a b)) l1 l2).filterMap id =
        List.zipWith f l1 l2 := by
  intro l1
  induction l1 with
  | nil => intro l2; simp
  | cons a l1 ih =>
    intro l2
    cases l2 with
    | nil => simp
    | cons b l2 => simp [List.zipWith_cons_cons, List.filterMap_cons, ih]

theorem dV_col_filterMap (rows : List DataRow) :
    (dV_col rows).filterMap id = abs_voltage_diffs rows := by
  cases rows with
  | nil => rfl
  | cons r tail =>
    simp only [dV_col, abs_voltage_diffs, List.filterMap_cons, id]
    exact filterMap_id_zipWith_some _ _ _

theorem avg_step_eq (rows : List DataRow) :
    avg_step rows = if nonzero_diffs rows = [] then none
      else some ((nonzero_diffs rows).sum / (nonzero_diffs rows).length) := by
  unfold avg_step nonzero_diffs
  rw [dV_col_filterMap]

theorem zip_filter_eq_range {α β : Type} (g : β → Bool) :
    ∀ (xs : List α) (ds : List β), ds.length = xs.length →
      ((xs.zip ds).filter (fun p => ! g p.2)).map Prod.fst
        = (List.range xs.length).filterMap
            (fun i => match ds[i]? with
              | some d => if g d then none else xs[i]?
              | none => none) := by
  intro xs
  induction xs with
  | nil => intro ds h; simp
  | cons x xs ih =>
    intro ds h
    cases ds with
    | nil => simp at h
    | cons d ds =>
      simp only [List.length_cons] at h
      have h2 : ds.length = xs.length := by omega
      have htail : (List.range xs.length).filterMap
            ((fun i => match (d :: ds)[i]? with
              | some d0 => if g d0 then none else (x :: xs)[i]?
              | none => none) ∘ Nat.succ)
          = (List.range xs.length).filterMap
            (fun i => match ds[i]? with
              | some d0 => if g d0 then none else xs[i]?
              | none => none) := by
        apply List.filterMap_congr
        intro i hi
        simp [Function.comp, List.getElem?_cons_succ]
      simp only [List.length_cons, List.range_succ_eq_map, List.filterMap_cons,
        List.getElem?_cons_zero, List.zip_cons_cons, List.filter_cons,
        List.filterMap_map]
      rw [htail]
      cases hgd : g d with
      | false => simp [hgd, ih ds h2]
      | true => simp [hgd, ih ds h2]

theorem dV_col_succ (rows : List DataRow) (j : Nat) :
    (dV_col rows)[j + 1]? =
      match rows[j]?, rows[j + 1]? with
      | some a, some b => some (some |b.voltage - a.voltage|)
      | _, _ => none := by
  cases rows with
  | nil => simp [dV_col]
  | cons r tail =>
    simp only [dV_col, List.getElem?_cons_succ, List.getElem?_zipWith]
    cases hj : (r :: tail)[j]? with
    | none =>
      have : tail[j]? = none := by
        cases tail with
        | nil => simp
        | cons y t2 =>
          simp only [List.getElem?_eq_none_iff, List.length_cons] at hj ⊢
          omega
      simp [this]
    | some a =>
      cases tail with
      | nil =>
        simp
      | cons y t2 => cases (y :: t2)[j]? <;> rfl

/-- C2: when at least one non-zero voltage difference exists, the jump
filter classifies row `i > 0` as an outlier exactly when its absolute
voltage difference from row `i - 1` strictly exceeds the multiplier
times the mean of all non-zero absolute differences (row 0 is never an
outlier), and returns exactly the non-outlier rows in original order. -/
theorem C2_jump_filter_outlier_rule :
    ∀ (rows : List DataRow) (m : ℚ), nonzero_diffs rows ≠ [] →
      remove_voltage_jumps rows m = spec_output rows m := by
  intro rows m hnz
  have havg : avg_step rows =
      some ((nonzero_diffs rows).sum / (nonzero_diffs rows).length) := by
    rw [avg_step_eq]
    simp [hnz]
  have hthr : jump_threshold m rows = some (spec_threshold rows m) := by
    rw [jump_threshold, havg, spec_threshold]
    rfl
  unfold remove_voltage_jumps spec_output
  rw [zip_filter_eq_range (is_outlier (jump_threshold m rows)) rows (dV_col rows)
    (dV_col_length rows)]
  apply List.filterMap_congr
  intro i hi
  rw [List.mem_range] at hi
  cases i with
  | zero =>
    cases rows with
    | nil => simp at hi
    | cons r tail =>
      simp [dV_col, spec_is_outlier, is_outlier_nan_dv, hthr]
  | succ j =>
    rw [dV_col_succ]
    have hp : ∃ p, rows[j]? = some p :=
      ⟨rows[j], List.getElem?_eq_getElem (by omega)⟩
    have hr : ∃ r, rows[j + 1]? = some r :=
      ⟨rows[j + 1], List.getElem?_eq_getElem hi⟩
    obtain ⟨p, hp⟩ := hp
    obtain ⟨r, hr⟩ := hr
    rw [hp, hr]
    simp only [spec_is_outlier, hp, hr, hthr, is_outlier]

theorem remove_jumps_all_zero {rows : List DataRow} {m : ℚ}
    (h : nonzero_diffs rows = []) : remove_voltage_jumps rows m = rows := by
  have havg : avg_step rows = none := by
    rw [avg_step_eq]
    simp [h]
  have hthr : jump_threshold m rows = none := by
    rw [jump_threshold, havg]
    rfl
  simp only [remove_voltage_jumps]
  rw [hthr]
  have hfilter : (rows.zip (dV_col rows)).filter
      (fun p => ! is_outlier none p.2) = rows.zip (dV_col rows) := by
    rw [List.filter_eq_self]
    intro a ha
    simp [is_outlier_nan_threshold]
  rw [hfilter]
  exact List.map_fst_zip rows (dV_col rows) (le_of_eq (dV_col_length rows).symm)

/-- C10: whenever every voltage difference is zero (in particular for
any series of length at most one), the mean of the empty non-zero-step
selection is NaN (`none`), every comparison against the NaN threshold is
false, no row is flagged, and the filter returns its input unchanged. -/
theorem C10_all_zero_diffs_returns_input :
    (∀ rows : List DataRow, rows.length ≤ 1 → nonzero_diffs rows = []) ∧
    ∀ (rows : List DataRow) (m : ℚ), nonzero_diffs rows = [] →
      avg_step rows = none ∧ remove_voltage_jumps rows m = rows := by
  constructor
  · intro rows hlen
    cases rows with
    | nil => rfl
    | cons r tail =>
      cases tail with
      | nil => rfl
      | cons y t2 => simp at hlen
  · intro rows m h
    refine ⟨?_, remove_jumps_all_zero h⟩
    rw [avg_step_eq]
    simp [h]

theorem C10_all_zero_diffs_returns_input_witness :
    avg_step [DataRow.mk 1 0, DataRow.mk 1 5] = none ∧
      remove_voltage_jumps [DataRow.mk 1 0, DataRow.mk 1 5] 3 =
        [DataRow.mk 1 0, DataRow.mk 1 5] :=
  C10_all_zero_diffs_returns_input.2 [DataRow.mk 1 0, DataRow.mk 1 5] 3
    (by simp [nonzero_diffs, abs_voltage_diffs])

/-- C5 counterexample: there is NO input with all-zero voltage
differences on which the filter removes anything, let alone returns an
empty result: on every such degenerate input the output equals the
input. -/
theorem C5_counterexample :
    ¬ ∃ (rows : List DataRow) (m : ℚ),
        nonzero_diffs rows = [] ∧ remove_voltage_jumps rows m ≠ rows := by
  rintro ⟨rows, m, h, hne⟩
  exact hne (remove_jumps_all_zero h)

/-- C5 (amended): the jump filter is total on well-formed input, and on
an input whose voltage differences are all zero no step classifies as an
outlier: the filter returns its input unchanged, so the result is
non-empty whenever the input is. -/
theorem C5_degenerate_input_keeps_rows :
    ∀ (rows : List DataRow) (m : ℚ), nonzero_diffs rows = [] →
      remove_voltage_jumps rows m = rows ∧
        (rows ≠ [] → remove_voltage_jumps rows m ≠ []) := by
  intro rows m h
  have heq := @remove_jumps_all_zero rows m h
  refine ⟨heq, fun hne => ?_⟩
  rw [heq]
  exact hne

theorem C5_degenerate_input_keeps_rows_witness :
    remove_voltage_jumps [DataRow.mk 2 7] 1 = [DataRow.mk 2 7] ∧
      ([DataRow.mk 2 7] ≠ ([] : List DataRow) →
        remove_voltage_jumps [DataRow.mk 2 7] 1 ≠ []) :=
  C5_degenerate_input_keeps_rows [DataRow.mk 2 7] 1 (by simp [nonzero_diffs, abs_voltage_diffs])

/-- C8: the first sample of a non-empty input has no predecessor
difference (its `dV` entry is NaN), is never classified as an outlier,
and is always the first row of the output, for every series and every
threshold multiplier. -/
theorem C8_first_sample_retained :
    ∀ (r : DataRow) (rest : List DataRow) (m : ℚ),
      (remove_voltage_jumps (r :: rest) m).head? = some r := by
  intro r rest m
  unfold remove_voltage_jumps
  simp [dV_col, List.zip_cons_cons, List.filter_cons, is_outlier_nan_dv]

/-- C9: the jump filter does not mutate its input (it is a pure function
of it; the Python code works on `df.copy()`), and its output is a
sub-sequence of the input: every output row appears in the input, the
relative order of retained rows is preserved, and no new rows are
introduced. -/
theorem C9_output_sublist_of_input :
    ∀ (rows : List DataRow) (m : ℚ),
      (remove_voltage_jumps rows m).Sublist rows := by
  intro rows m
  unfold remove_voltage_jumps
  have hs : ((rows.zip (dV_col rows)).filter
      (fun p => ! is_outlier (jump_threshold m rows) p.2)).Sublist
        (rows.zip (dV_col rows)) := List.filter_sublist _
  have hmap := hs.map Prod.fst
  rwa [List.map_fst_zip rows (dV_col rows)
    (le_of_eq (dV_col_length rows).symm)] at hmap

theorem C2_jump_filter_outlier_rule_witness :
    remove_voltage_jumps [DataRow.mk 0 0, DataRow.mk 1 0] 2 =
      spec_output [DataRow.mk 0 0, DataRow.mk 1 0] 2 :=
  C2_jump_filter_outlier_rule [DataRow.mk 0 0, DataRow.mk 1 0] 2
    (by simp [nonzero_diffs, abs_voltage_diffs])

/-- The worked example of the spec: voltages 0.0, 0.1, 0.2, 5.0, 0.3
(currents immaterial, taken as 0). -/
def example_series : List DataRow :=
  [⟨0, 0⟩, ⟨1/10, 0⟩, ⟨2/10, 0⟩, ⟨5, 0⟩, ⟨3/10, 0⟩]

theorem example_series_eval :
    remove_voltage_jumps example_series 2 = example_series := by
  have hnz : nonzero_diffs example_series = [1/10, 1/10, 24/5, 47/10] := by
    norm_num [nonzero_diffs, abs_voltage_diffs, example_series,
      abs_of_nonneg, abs_of_nonpos]
  have hthr : jump_threshold 2 example_series = some (97/20) := by
    rw [jump_threshold, avg_step_eq, hnz]
    norm_num
    exact ⟨97/40, ⟨by simp, rfl⟩, by norm_num⟩
  have hd : dV_col example_series =
      [none, some (1/10), some (1/10), some (24/5), some (47/10)] := by
    norm_num [dV_col, example_series, abs_of_nonneg, abs_of_nonpos]
  simp only [remove_voltage_jumps]
  rw [hthr, hd]
  norm_num [example_series, is_outlier, List.filter_cons, List.zip_cons_cons,
    Bool.not_eq_true', decide_eq_false_iff_not, decide_eq_true_eq]

/-- C4 counterexample: on voltages 0.0, 0.1, 0.2, 5.0, 0.3 with
multiplier 2 the mean non-zero step is 2.425 and the threshold 4.85; the
largest difference 4.8 does not exceed it, so nothing is removed and the
output length is 5, not 4. -/
theorem C4_counterexample :
    (remove_voltage_jumps example_series 2).length ≠ 4 := by
  rw [example_series_eval]
  simp [example_series]

/-- C4 (amended): for the voltage sequence 0.0, 0.1, 0.2, 5.0, 0.3 with
threshold multiplier 2, every absolute step (at most 4.8) is below the
threshold 2 × 2.425 = 4.85, so the jump filter removes no sample and
returns all 5 rows unchanged. -/
theorem C4_no_sample_removed :
    remove_voltage_jumps example_series 2 = example_series ∧
      (remove_voltage_jumps example_series 2).length = 5 := by
  refine ⟨example_series_eval, ?_⟩
  rw [example_series_eval]
  rfl
